import Mathlib

/-!
# Verification of darling's errno translation and xtrace tracer

Shallow embedding of:
* `src/libSystem/libc/errno.cpp` — Darwin/Linux errno translation;
* the xtrace tracer source (hook installation, nested-call tracking,
  environment-block rewriting for `execve` injection).

Machine integers are modelled as `Int`/`Nat` with explicit reductions
modulo `2 ^ 64` where the C code performs unsigned conversions.
-/

namespace Errno

/-- The two translation tables are declared `int darwin_to_linux[140]` and
`int linux_to_darwin[140]`. -/
def ERRNO_TABLE_LEN : Nat := 140

/-- Embedding of the guard `err < sizeof(darwin_to_linux)/sizeof(darwin_to_linux[0])-1`
in `errnoDoMap`.  The left operand `err` is a C `int`; the right operand is a
`size_t` with value `140 - 1 = 139`.  By the usual arithmetic conversions the
signed `err` is converted to the 64-bit unsigned type before comparing, so a
negative `err` compares as `err + 2 ^ 64`. -/
def errnoInRange (err : Int) : Bool :=
  decide ((err % (2 : Int) ^ 64).toNat < ERRNO_TABLE_LEN - 1)

/-- Embedding of `errnoDoMap` from `errno.cpp`: when the (converted) code is
below 139 the table entry is consulted and, if the entry is zero, the original
value is preserved; otherwise the function returns 0.  The table is the `map`
parameter, exactly as in the source (`static int errnoDoMap(int err, int* map)`).
The table read `map[err]` is only reached when the guard holds, in which case
`0 ≤ err < 139`, so indexing with `err.toNat` is exact. -/
def errnoDoMap (err : Int) (map : Nat → Int) : Int :=
  if errnoInRange err then
    let e := map err.toNat
    if e = 0 then err else e
  else 0

/-- Modelled from the spec: the contents of the generated include files
`darwin_to_linux.map` and `linux_to_darwin.map` (and the three `_DARWIN_EBAD*`
patch-ups) are not among the sources here.  The tables start zero-initialized
(`memset` in `initErrnoMappingTable`) and the generated entries are unknown,
so they are modelled in the zero-initialized state.  Every claim proved below
about out-of-range or negative codes is established universally over the table
(see `errno_out_of_range_returns_zero` and `errno_negative_err_guard`), so the
modelled entries never matter. -/
def darwin_to_linux : Nat → Int := fun _ => 0

/-- Modelled from the spec: see `darwin_to_linux`. -/
def linux_to_darwin : Nat → Int := fun _ => 0

/-- Embedding of `errnoDarwinToLinux` from `errno.cpp`. -/
def errnoDarwinToLinux (err : Int) : Int := errnoDoMap err darwin_to_linux

/-- Embedding of `errnoLinuxToDarwin` from `errno.cpp`. -/
def errnoLinuxToDarwin (err : Int) : Int := errnoDoMap err linux_to_darwin

/-- C1, counterexample: at the out-of-range code 139 both translation
functions return 0, not the original code 139 — out-of-range codes are not
passed through unmapped. -/
theorem errno_out_of_range_counterexample :
    errnoDarwinToLinux 139 = 0 ∧ errnoLinuxToDarwin 139 = 0 ∧ (0 : Int) ≠ 139 := by
  refine ⟨by decide, by decide, by decide⟩

/-- C1, amended: for every error code `err ≥ 139` (out of range of the
140-entry translation tables, and representable as a C `int`), `errnoDoMap`
returns 0 whatever the table contains; hence `errnoDarwinToLinux` and
`errnoLinuxToDarwin` both return 0.  The preserve-the-original-value
pass-through applies only to in-range codes whose table entry is zero. -/
theorem errno_out_of_range_returns_zero (err : Int)
    (h139 : 139 ≤ err) (hint : err < 2 ^ 31) :
    (∀ map : Nat → Int, errnoDoMap err map = 0) ∧
      errnoDarwinToLinux err = 0 ∧ errnoLinuxToDarwin err = 0 := by
  have hguard : errnoInRange err = false := by
    simp only [errnoInRange, ERRNO_TABLE_LEN, decide_eq_false_iff_not, not_lt]
    omega
  have hmap : ∀ map : Nat → Int, errnoDoMap err map = 0 := by
    intro map
    simp [errnoDoMap, hguard]
  exact ⟨hmap, hmap darwin_to_linux, hmap linux_to_darwin⟩

/-- C1, witness for `errno_out_of_range_returns_zero` at `err = 200`. -/
theorem errno_out_of_range_returns_zero_witness :
    (139 ≤ (200 : Int)) ∧ ((200 : Int) < 2 ^ 31) ∧
      ((∀ map : Nat → Int, errnoDoMap 200 map = 0) ∧
        errnoDarwinToLinux 200 = 0 ∧ errnoLinuxToDarwin 200 = 0) :=
  ⟨by decide, by decide, errno_out_of_range_returns_zero 200 (by decide) (by decide)⟩

/-- C10, counterexample: at `err = -1` the guard does NOT take the mapping
branch — the signed/unsigned comparison converts `-1` to `2 ^ 64 - 1`, which
fails the bound, so `errnoDoMap` takes the `else` branch and returns 0 without
touching the table. -/
theorem errno_negative_guard_counterexample :
    errnoInRange (-1) = false ∧ errnoDoMap (-1) darwin_to_linux = 0 := by
  constructor
  · decide
  · simp [errnoDoMap]
    decide

/-- C10, amended: the guard in `errnoDoMap` compares the signed `err` against
an unsigned `size_t` bound, so `err` is converted to unsigned: every negative
`err` fails the guard and returns 0 (it never takes the mapping branch), and
whenever the guard holds the index satisfies `0 ≤ err < 139`, so the access
`map[err]` is always within the 140-entry array with no extra precondition. -/
theorem errno_negative_err_guard (err : Int)
    (hlo : -(2 ^ 31) ≤ err) (hhi : err < 2 ^ 31) :
    (err < 0 → errnoInRange err = false ∧ ∀ map : Nat → Int, errnoDoMap err map = 0) ∧
      (errnoInRange err = true → 0 ≤ err ∧ err < 139) := by
  constructor
  · intro hneg
    have hguard : errnoInRange err = false := by
      simp only [errnoInRange, ERRNO_TABLE_LEN, decide_eq_false_iff_not, not_lt]
      omega
    refine ⟨hguard, ?_⟩
    intro map
    simp [errnoDoMap, hguard]
  · intro hguard
    simp only [errnoInRange, ERRNO_TABLE_LEN, decide_eq_true_eq] at hguard
    omega

/-- C10, witness for `errno_negative_err_guard` at `err = -1`. -/
theorem errno_negative_err_guard_witness :
    (-(2 ^ 31) ≤ (-1 : Int)) ∧ ((-1 : Int) < 2 ^ 31) ∧
      (((-1 : Int) < 0 → errnoInRange (-1) = false ∧
          ∀ map : Nat → Int, errnoDoMap (-1) map = 0) ∧
        (errnoInRange (-1) = true → 0 ≤ (-1 : Int) ∧ (-1 : Int) < 139)) :=
  ⟨by decide, by decide, errno_negative_err_guard (-1) (by decide) (by decide)⟩

end Errno

namespace Xtrace

/-! ## Hook installer (xtrace_setup_mach / xtrace_setup_bsd / setup_hook_with_perms)

The installer computes a page-aligned address range around the hook slots,
calls `mprotect` to make it writable (discarding the return value), patches
the slots, and calls `mprotect` again to drop the write permission (again
discarding the return value).  We embed the installer as a function from the
slot addresses — and from the outcome the kernel would report for the
`mprotect` calls — to the list of actions it performs.  `xtrace_abort` is a
distinct action; the installers never emit it. -/

/-- `sizeof(struct hook)` on x86_64: `uint8_t movabs[2]; uint64_t addr;
uint8_t call[3]` packed, i.e. 13 bytes (13 on i386 and arm64 as well, given
the packed layouts in the source). -/
def hookSize : Nat := 13

/-- Embedding of `area &= ~(4096-1)`: round an address down to a page
boundary. -/
def pageTrunc (a : Nat) : Nat := a - a % 4096

/-- The least page boundary at or above `a` (what "rounded up to a page
boundary" denotes). -/
def pageRoundUp (a : Nat) : Nat := ((a + 4095) / 4096) * 4096

/-- One observable action of the hook installer. -/
inductive HookAction where
  /-- An `mprotect(addr, len, ...)` call; `rwx` is true for the
  `PROT_READ|PROT_WRITE|PROT_EXEC` call and false for the restoring
  `PROT_READ|PROT_EXEC` call. -/
  | mprotect (addr len : Nat) (rwx : Bool)
  /-- A `setup_hook` patch of the slot at `addr`. -/
  | patch (addr : Nat)
  /-- An `xtrace_abort(msg)` call. -/
  | abortCall (msg : String)
  deriving DecidableEq

/-- True when the action list contains an `xtrace_abort` call. -/
def hasAbort (l : List HookAction) : Bool :=
  l.any fun a => match a with
    | .abortCall _ => true
    | _ => false

/-- Embedding of `xtrace_setup_mach`: the page-aligned range is computed from
the entry slot address and the end of the exit slot, both slots are patched,
and the two `mprotect` results are discarded (the C calls ignore the return
value, so the action list does not depend on `mprotectOk`). -/
def xtrace_setup_mach (entryAddr exitAddr : Nat) (_mprotectOk : Bool) : List HookAction :=
  let area := pageTrunc entryAddr
  let areaEnd := pageTrunc (exitAddr + hookSize)
  let bytes := 4096 + (areaEnd - area)
  [.mprotect area bytes true, .patch entryAddr, .patch exitAddr,
   .mprotect area bytes false]

/-- Embedding of `xtrace_setup_bsd` (same shape as `xtrace_setup_mach`, on the
BSD slots). -/
def xtrace_setup_bsd (entryAddr exitAddr : Nat) (_mprotectOk : Bool) : List HookAction :=
  let area := pageTrunc entryAddr
  let areaEnd := pageTrunc (exitAddr + hookSize)
  let bytes := 4096 + (areaEnd - area)
  [.mprotect area bytes true, .patch entryAddr, .patch exitAddr,
   .mprotect area bytes false]

/-- Embedding of `setup_hook_with_perms`: a single slot, same range
computation with `areaEnd` taken from `hook + sizeof(struct hook)`. -/
def setup_hook_with_perms (hookAddr : Nat) (_mprotectOk : Bool) : List HookAction :=
  let area := pageTrunc hookAddr
  let areaEnd := pageTrunc (hookAddr + hookSize)
  let bytes := 4096 + (areaEnd - area)
  [.mprotect area bytes true, .patch hookAddr, .mprotect area bytes false]

/-- The half-open address range `[start, stop)` passed to the two `mprotect`
calls of `xtrace_setup_mach`, `xtrace_setup_bsd` and (with
`exitAddr = entryAddr`) `setup_hook_with_perms`: start is `pageTrunc entryAddr`
and the length is `4096 + (pageTrunc (exitAddr + hookSize) - start)`. -/
def writableRange (entryAddr exitAddr : Nat) : Nat × Nat :=
  let area := pageTrunc entryAddr
  let areaEnd := pageTrunc (exitAddr + hookSize)
  (area, area + (4096 + (areaEnd - area)))

/-- C2, counterexample: with the memory-protection change failing
(`mprotectOk = false`), installation still performs all its patches and emits
no abort — the `mprotect` return values are ignored, so a failure is not
fatal to startup. -/
theorem mprotect_failure_no_abort_counterexample :
    hasAbort (xtrace_setup_mach 8192 12288 false) = false ∧
      hasAbort (xtrace_setup_bsd 8192 12288 false) = false ∧
      hasAbort (setup_hook_with_perms 8192 false) = false := by
  decide

/-- C2, amended: the hook installers discard the result of both `mprotect`
calls: the actions performed do not depend on whether the protection change
succeeded, and no abort is ever emitted — installation proceeds (and the
process continues) even when the memory-protection change fails. -/
theorem hook_install_ignores_mprotect_result (entryAddr exitAddr hookAddr : Nat) :
    (∀ ok : Bool,
        hasAbort (xtrace_setup_mach entryAddr exitAddr ok) = false ∧
        hasAbort (xtrace_setup_bsd entryAddr exitAddr ok) = false ∧
        hasAbort (setup_hook_with_perms hookAddr ok) = false) ∧
      xtrace_setup_mach entryAddr exitAddr true = xtrace_setup_mach entryAddr exitAddr false ∧
      xtrace_setup_bsd entryAddr exitAddr true = xtrace_setup_bsd entryAddr exitAddr false ∧
      setup_hook_with_perms hookAddr true = setup_hook_with_perms hookAddr false := by
  refine ⟨?_, rfl, rfl, rfl⟩
  intro ok
  refine ⟨rfl, rfl, rfl⟩

/-- C8, counterexample: when the union of the hook regions ends exactly on a
page boundary, the range made writable does not end at the end rounded up to a
page boundary — it extends one page further.  With the entry slot at 12288 and
the exit slot at 16371 the union ends at `16371 + 13 = 16384`, already
page-aligned, yet the writable range ends at 20480. -/
theorem writable_range_counterexample :
    (writableRange 12288 16371).2 = 20480 ∧
      pageRoundUp (16371 + hookSize) = 16384 ∧
      (writableRange 12288 16371).2 ≠ pageRoundUp (16371 + hookSize) := by
  decide

/-- C8, amended: for every pair of hook-slot addresses with the entry slot at
or below the exit slot, the range made temporarily writable starts at the
entry address rounded down to a page boundary and ends at the page boundary
`pageTrunc (exitAddr + hookSize) + 4096`; this end is a page boundary at least
the round-up of the union's end (one page beyond it exactly when the union
ends page-aligned), so the range covers the entire union of the hook regions,
including regions that straddle a page boundary.  The range is exactly the one
passed to both `mprotect` calls. -/
theorem writable_range_covers_hooks (entryAddr exitAddr : Nat)
    (h : entryAddr ≤ exitAddr) :
    (writableRange entryAddr exitAddr).1 = pageTrunc entryAddr ∧
      (writableRange entryAddr exitAddr).1 ≤ entryAddr ∧
      exitAddr + hookSize ≤ (writableRange entryAddr exitAddr).2 ∧
      (writableRange entryAddr exitAddr).2 % 4096 = 0 ∧
      pageRoundUp (exitAddr + hookSize) ≤ (writableRange entryAddr exitAddr).2 ∧
      (∀ ok : Bool, xtrace_setup_mach entryAddr exitAddr ok =
        [.mprotect (writableRange entryAddr exitAddr).1
            ((writableRange entryAddr exitAddr).2 - (writableRange entryAddr exitAddr).1) true,
         .patch entryAddr, .patch exitAddr,
         .mprotect (writableRange entryAddr exitAddr).1
            ((writableRange entryAddr exitAddr).2 - (writableRange entryAddr exitAddr).1) false]) := by
  have htr : pageTrunc entryAddr ≤ pageTrunc (exitAddr + hookSize) := by
    simp only [pageTrunc, hookSize]
    omega
  refine ⟨rfl, ?_, ?_, ?_, ?_, ?_⟩
  · simp only [writableRange, pageTrunc]
    omega
  · simp only [writableRange, pageTrunc, hookSize] at htr ⊢
    omega
  · simp only [writableRange, pageTrunc, hookSize] at htr ⊢
    omega
  · simp only [writableRange, pageRoundUp, pageTrunc, hookSize] at htr ⊢
    omega
  · intro ok
    have hb : (writableRange entryAddr exitAddr).2 - (writableRange entryAddr exitAddr).1
        = 4096 + (pageTrunc (exitAddr + hookSize) - pageTrunc entryAddr) := by
      show pageTrunc entryAddr + (4096 + (pageTrunc (exitAddr + hookSize) - pageTrunc entryAddr))
          - pageTrunc entryAddr = 4096 + (pageTrunc (exitAddr + hookSize) - pageTrunc entryAddr)
      omega
    simp only [xtrace_setup_mach, hb]
    rfl

/-- C8, witness for `writable_range_covers_hooks` at entry 12288, exit
16371. -/
theorem writable_range_covers_hooks_witness :
    (12288 ≤ 16371) ∧
      ((writableRange 12288 16371).1 = pageTrunc 12288 ∧
        (writableRange 12288 16371).1 ≤ 12288 ∧
        16371 + hookSize ≤ (writableRange 12288 16371).2 ∧
        (writableRange 12288 16371).2 % 4096 = 0 ∧
        pageRoundUp (16371 + hookSize) ≤ (writableRange 12288 16371).2 ∧
        (∀ ok : Bool, xtrace_setup_mach 12288 16371 ok =
          [.mprotect (writableRange 12288 16371).1
              ((writableRange 12288 16371).2 - (writableRange 12288 16371).1) true,
           .patch 12288, .patch 16371,
           .mprotect (writableRange 12288 16371).1
              ((writableRange 12288 16371).2 - (writableRange 12288 16371).1) false])) :=
  ⟨by decide, writable_range_covers_hooks 12288 16371 (by decide)⟩

/-! ## Nested-call tracker (handle_generic_entry / handle_generic_exit)

The per-thread state is `struct nested_call_struct` (current level, previous
level, per-level call numbers) together with the thread's in-flight log buffer
(an `xtrace::String`) and the lines already emitted through `xtrace_log`.
The process-wide option globals (`xtrace_ignore`,
`xtrace_split_entry_and_exit`, `xtrace_no_color`, ...) are gathered in an
options record.  `xtrace_log("%s\n", buf)` is modelled as appending the buffer
contents as one line to the list of emitted lines. -/

/-- The process-wide option globals of the tracer. -/
structure XtraceOpts where
  /-- `xtrace_ignore`: the suppression flag (set until setup completes). -/
  ignore : Bool
  /-- `xtrace_split_entry_and_exit`. -/
  split : Bool
  /-- `xtrace_no_color`. -/
  no_color : Bool
  /-- The kernel thread id returned by `sys_thread_selfid()` for this
  thread. -/
  tid : Int

/-- One `struct calldef` table entry: optional name, optional argument
printer, optional return-value printer.  The printers take the call number
and the raw arguments / return value and yield the text they would append. -/
structure calldef where
  name : Option String
  print_args : Option (Int → List Int → String)
  print_retval : Option (Int → Int → String)

/-- Per-thread tracker state: `struct nested_call_struct` (`nrs` totalized to
a function from level to call number; the C array has 64 slots and unchecked
indexing), plus the thread's log buffer and the lines emitted so far. -/
structure TraceState where
  current_level : Int
  previous_level : Int
  nrs : Int → Int
  buffer : String
  lines : List String

/-- The zero-initialized per-thread state (`(struct nested_call_struct) {0}`,
empty buffer, nothing emitted). -/
def initState : TraceState :=
  { current_level := 0, previous_level := 0, nrs := fun _ => 0,
    buffer := "", lines := [] }

/-- `xtrace_set_gray_color`: appends the gray escape unless colors are off. -/
def grayStr (opts : XtraceOpts) : String :=
  if opts.no_color then "" else "\x1b[37m"

/-- `xtrace_reset_color`: appends the reset escape unless colors are off. -/
def resetStr (opts : XtraceOpts) : String :=
  if opts.no_color then "" else "\x1b[0m"

/-- `xtrace_start_line`: gray color, `[tid]`, `indent + 1` spaces (the C loop
runs zero times when `indent + 1 ≤ 0`), reset color. -/
def xtrace_start_line (opts : XtraceOpts) (log : String) (indent : Int) : String :=
  log ++ grayStr opts ++ "[" ++ toString opts.tid ++ "]"
    ++ String.mk (List.replicate (indent + 1).toNat ' ') ++ resetStr opts

/-- `print_call`: start the line, optionally switch to gray for the name, then
the call's name if known, else `"<type> <nr>"`. -/
def print_call (opts : XtraceOpts) (log : String) (defs : Int → calldef)
    (type : String) (nr : Int) (indent : Int) (gray_name : Bool) : String :=
  let l1 := xtrace_start_line opts log indent
  let l2 := if gray_name then l1 ++ grayStr opts else l1
  match (defs nr).name with
  | some nm => l2 ++ nm
  | none => l2 ++ type ++ " " ++ toString nr

/-- The argument part appended by `handle_generic_entry`: `"(" args ")"` when
both the name and the argument printer exist, else `"(...)"`. -/
def entryArgsPart (defs : Int → calldef) (nr : Int) (args : List Int) : String :=
  match (defs nr).name, (defs nr).print_args with
  | some _, some pa => "(" ++ pa nr args ++ ")"
  | _, _ => "(...)"

/-- `"0x%lx"` formatting of the (64-bit unsigned) return value. -/
def hex64 (retval : Int) : String :=
  "0x" ++ String.mk (Nat.toDigits 16 (retval % (2 : Int) ^ 64).toNat)

/-- The return-value part appended by `handle_generic_exit` after the arrow:
the table's printer when the name and printer exist, else hex. -/
def exitRetvalPart (defs : Int → calldef) (nr : Int) (retval : Int) : String :=
  match (defs nr).name, (defs nr).print_retval with
  | some _, some pr => pr nr retval
  | _, _ => hex64 retval

/-- Embedding of `handle_generic_entry`.  With the suppression flag set it is
a no-op.  Otherwise: if `previous_level < current_level` and split mode is
off, the still-open buffer from the prior entry is flushed; the call number is
recorded at the current level; the call header and argument list are appended
at indentation `4 * current_level`; in split mode the line is flushed
immediately; finally `previous_level = current_level++`. -/
def handle_generic_entry (opts : XtraceOpts) (defs : Int → calldef)
    (type : String) (nr : Int) (args : List Int) (s : TraceState) : TraceState :=
  if opts.ignore then s else
  let flushPrior := s.previous_level < s.current_level ∧ opts.split = false
  let buf0 := if flushPrior then "" else s.buffer
  let lines0 := if flushPrior then s.lines ++ [s.buffer] else s.lines
  let indent := 4 * s.current_level
  let nrs1 := fun i => if i = s.current_level then nr else s.nrs i
  let buf1 := print_call opts buf0 defs type nr indent false ++ entryArgsPart defs nr args
  let buf2 := if opts.split then "" else buf1
  let lines1 := if opts.split then lines0 ++ [buf1] else lines0
  { current_level := s.current_level + 1
    previous_level := s.current_level
    nrs := nrs1
    buffer := buf2
    lines := lines1 }

/-- Embedding of `handle_generic_exit`.  With the suppression flag set it is
a no-op.  Otherwise: if `previous_level > current_level` (we are after an
unmatched exit) the split is forced; `previous_level = current_level--`; the
call number is recovered from the now-current level; when splitting, a dimmed
header line with `"()"` is re-emitted at the new indentation; the
`" -> retval"` suffix is appended and the line is flushed. -/
def handle_generic_exit (opts : XtraceOpts) (defs : Int → calldef)
    (type : String) (retval : Int) (force_split : Bool) (s : TraceState) : TraceState :=
  if opts.ignore then s else
  let fs := force_split || decide (s.previous_level > s.current_level)
  let cur1 := s.current_level - 1
  let nr := s.nrs cur1
  let buf1 := if opts.split || fs then
      print_call opts s.buffer defs type nr (4 * cur1) true ++ "()"
    else s.buffer
  let buf2 := buf1 ++ grayStr opts ++ " -> " ++ resetStr opts
    ++ exitRetvalPart defs nr retval
  { current_level := cur1
    previous_level := s.current_level
    nrs := s.nrs
    buffer := ""
    lines := s.lines ++ [buf2] }

/-- One observable transition of the tracker on a thread. -/
inductive XEvent where
  | entry (nr : Int) (args : List Int)
  | exit (retval : Int) (force_split : Bool)

/-- Run one event through the tracker. -/
def xstep (opts : XtraceOpts) (defs : Int → calldef) (type : String)
    (s : TraceState) : XEvent → TraceState
  | .entry nr args => handle_generic_entry opts defs type nr args s
  | .exit retval fs => handle_generic_exit opts defs type retval fs s

/-- Run a sequence of events through the tracker. -/
def xrun (opts : XtraceOpts) (defs : Int → calldef) (type : String)
    (s : TraceState) (evs : List XEvent) : TraceState :=
  evs.foldl (xstep opts defs type) s

/-- Number of Entry transitions in a sequence. -/
def countEntry (evs : List XEvent) : Nat :=
  evs.countP fun ev => match ev with
    | .entry _ _ => true
    | _ => false

/-- Number of Exit transitions in a sequence. -/
def countExit (evs : List XEvent) : Nat :=
  evs.countP fun ev => match ev with
    | .exit _ _ => true
    | _ => false

lemma current_level_xstep (opts : XtraceOpts) (defs : Int → calldef) (type : String)
    (hig : opts.ignore = false) (s : TraceState) (ev : XEvent) :
    (xstep opts defs type s ev).current_level =
      s.current_level + (match ev with | .entry _ _ => 1 | .exit _ _ => -1) := by
  cases ev with
  | entry nr args => simp [xstep, handle_generic_entry, hig]
  | exit retval fs => simp [xstep, handle_generic_exit, hig]; ring

lemma current_level_xrun (opts : XtraceOpts) (defs : Int → calldef) (type : String)
    (hig : opts.ignore = false) :
    ∀ (evs : List XEvent) (s : TraceState),
      (xrun opts defs type s evs).current_level =
        s.current_level + (countEntry evs : Int) - (countExit evs : Int) := by
  intro evs
  induction evs with
  | nil =>
    intro s
    simp [xrun, countEntry, countExit]
  | cons ev rest ih =>
    intro s
    have hstep := current_level_xstep opts defs type hig s ev
    have hrest := ih (xstep opts defs type s ev)
    simp only [xrun, List.foldl_cons] at hrest ⊢
    rw [hrest, hstep]
    cases ev <;>
      simp [countEntry, countExit, List.countP_cons] <;> ring

/-- C3, counterexample: with the suppression flag cleared, a sequence
consisting of a single Exit transition (no matching Entry) drives the
per-thread `current_level` to `-1`: the level does go negative, because
`handle_generic_exit` decrements unconditionally. -/
theorem nested_level_negative_counterexample :
    (xrun ⟨false, false, false, 7⟩ (fun _ => ⟨none, none, none⟩) "mach" initState
        [XEvent.exit 0 false]).current_level = -1 ∧ (-1 : Int) < 0 := by
  constructor
  · rfl
  · decide

/-- C3, amended: for any sequence of Entry/Exit transitions on one thread with
the suppression flag cleared, `current_level` after the whole sequence equals
the number of Entries minus the number of Exits (as integers); and provided
every prefix of the sequence contains at least as many Entries as Exits (the
sequences produced by matched call/return bracketing), `current_level` is
nonnegative at every point of the sequence.  For unbalanced sequences the
level does go negative (see the counterexample). -/
theorem nested_level_balance (opts : XtraceOpts) (defs : Int → calldef)
    (type : String) (evs : List XEvent) (hig : opts.ignore = false) :
    (xrun opts defs type initState evs).current_level =
        (countEntry evs : Int) - (countExit evs : Int) ∧
      ((∀ n, countExit (evs.take n) ≤ countEntry (evs.take n)) →
        ∀ n, 0 ≤ (xrun opts defs type initState (evs.take n)).current_level) := by
  constructor
  · rw [current_level_xrun opts defs type hig evs initState]
    simp [initState]
  · intro hbal n
    rw [current_level_xrun opts defs type hig (evs.take n) initState]
    simp only [initState]
    have := hbal n
    omega

/-- C3, witness for `nested_level_balance` on the balanced sequence
entry-entry-exit-exit. -/
theorem nested_level_balance_witness :
    ((⟨false, false, false, 7⟩ : XtraceOpts).ignore = false) ∧
      ((xrun ⟨false, false, false, 7⟩ (fun _ => ⟨none, none, none⟩) "mach" initState
          [XEvent.entry 1 [], XEvent.entry 2 [], XEvent.exit 0 false,
            XEvent.exit 0 false]).current_level =
        (countEntry [XEvent.entry 1 [], XEvent.entry 2 [], XEvent.exit 0 false,
            XEvent.exit 0 false] : Int) -
          (countExit [XEvent.entry 1 [], XEvent.entry 2 [], XEvent.exit 0 false,
            XEvent.exit 0 false] : Int) ∧
        ((∀ n, countExit ([XEvent.entry 1 [], XEvent.entry 2 [], XEvent.exit 0 false,
              XEvent.exit 0 false].take n) ≤
            countEntry ([XEvent.entry 1 [], XEvent.entry 2 [], XEvent.exit 0 false,
              XEvent.exit 0 false].take n)) →
          ∀ n, 0 ≤ (xrun ⟨false, false, false, 7⟩ (fun _ => ⟨none, none, none⟩) "mach"
            initState ([XEvent.entry 1 [], XEvent.entry 2 [], XEvent.exit 0 false,
              XEvent.exit 0 false].take n)).current_level)) :=
  ⟨rfl, nested_level_balance ⟨false, false, false, 7⟩ (fun _ => ⟨none, none, none⟩)
    "mach" [XEvent.entry 1 [], XEvent.entry 2 [], XEvent.exit 0 false,
      XEvent.exit 0 false] rfl⟩

/-- C4, confirmed: with the suppression flag cleared, after every Entry
transition `previous_level` equals the pre-transition `current_level` and is
strictly below the new `current_level`; after every Exit transition
`previous_level` equals the pre-transition `current_level` and is strictly
above the new `current_level`.  This holds from every starting state (the
source performs `previous_level = current_level++` resp.
`previous_level = current_level--`). -/
theorem previous_level_transition_invariant (opts : XtraceOpts)
    (defs : Int → calldef) (type : String) (s : TraceState) (nr : Int)
    (args : List Int) (retval : Int) (fs : Bool) (hig : opts.ignore = false) :
    ((handle_generic_entry opts defs type nr args s).previous_level = s.current_level ∧
      (handle_generic_entry opts defs type nr args s).previous_level <
        (handle_generic_entry opts defs type nr args s).current_level) ∧
      ((handle_generic_exit opts defs type retval fs s).previous_level = s.current_level ∧
        (handle_generic_exit opts defs type retval fs s).current_level <
          (handle_generic_exit opts defs type retval fs s).previous_level) := by
  refine ⟨⟨?_, ?_⟩, ?_, ?_⟩ <;>
    simp [handle_generic_entry, handle_generic_exit, hig]

/-- C4, witness for `previous_level_transition_invariant` at the initial state
with a trivial call table. -/
theorem previous_level_transition_invariant_witness :
    ((⟨false, false, false, 7⟩ : XtraceOpts).ignore = false) ∧
      (((handle_generic_entry ⟨false, false, false, 7⟩ (fun _ => ⟨none, none, none⟩)
            "bsd" 3 [] initState).previous_level = initState.current_level ∧
        (handle_generic_entry ⟨false, false, false, 7⟩ (fun _ => ⟨none, none, none⟩)
            "bsd" 3 [] initState).previous_level <
          (handle_generic_entry ⟨false, false, false, 7⟩ (fun _ => ⟨none, none, none⟩)
            "bsd" 3 [] initState).current_level) ∧
      ((handle_generic_exit ⟨false, false, false, 7⟩ (fun _ => ⟨none, none, none⟩)
            "bsd" 0 false initState).previous_level = initState.current_level ∧
        (handle_generic_exit ⟨false, false, false, 7⟩ (fun _ => ⟨none, none, none⟩)
            "bsd" 0 false initState).current_level <
          (handle_generic_exit ⟨false, false, false, 7⟩ (fun _ => ⟨none, none, none⟩)
            "bsd" 0 false initState).previous_level)) :=
  ⟨rfl, previous_level_transition_invariant ⟨false, false, false, 7⟩
    (fun _ => ⟨none, none, none⟩) "bsd" initState 3 [] 0 false rfl⟩

/-- The text `handle_generic_entry` places in the buffer for a first call at
depth 0: the call header (`print_call` at indent 0) followed by the argument
part. -/
def entry_line (opts : XtraceOpts) (defs : Int → calldef) (type : String)
    (nr : Int) (args : List Int) : String :=
  print_call opts "" defs type nr 0 false ++ entryArgsPart defs nr args

/-- The text `handle_generic_exit` appends after the entry text when no split
happens: the (optionally colorized) `" -> "` arrow followed by the formatted
return value. -/
def exit_suffix (opts : XtraceOpts) (defs : Int → calldef) (nr : Int)
    (retval : Int) : String :=
  grayStr opts ++ " -> " ++ resetStr opts ++ exitRetvalPart defs nr retval

/-- C7, confirmed: from the initial per-thread state, a single Entry
immediately followed by its matching Exit, with split mode off, no forced
split and the suppression flag cleared, emits exactly one log line; the entry
leaves the call header in the buffer, and the emitted line is exactly that
header followed by the `" -> value"` suffix appended at Exit (the buffer is
left clear). -/
theorem single_call_single_line (opts : XtraceOpts) (defs : Int → calldef)
    (type : String) (nr : Int) (args : List Int) (retval : Int)
    (hig : opts.ignore = false) (hsplit : opts.split = false) :
    (handle_generic_entry opts defs type nr args initState).buffer =
        entry_line opts defs type nr args ∧
      (handle_generic_exit opts defs type retval false
          (handle_generic_entry opts defs type nr args initState)).lines =
        [entry_line opts defs type nr args ++ exit_suffix opts defs nr retval] ∧
      (handle_generic_exit opts defs type retval false
          (handle_generic_entry opts defs type nr args initState)).buffer = "" := by
  have hbuf : (handle_generic_entry opts defs type nr args initState).buffer =
      entry_line opts defs type nr args := by
    simp [handle_generic_entry, initState, hig, hsplit, entry_line]
  refine ⟨hbuf, ?_, ?_⟩
  · simp only [handle_generic_exit, hig, Bool.false_eq_true, if_false]
    simp [handle_generic_entry, initState, hig, hsplit, entry_line, exit_suffix,
      String.append_assoc]
  · simp [handle_generic_exit, hig]

/-- C7, witness for `single_call_single_line` with a concrete option record
and call table. -/
theorem single_call_single_line_witness :
    ((⟨false, false, false, 7⟩ : XtraceOpts).ignore = false) ∧
      ((⟨false, false, false, 7⟩ : XtraceOpts).split = false) ∧
      ((handle_generic_entry ⟨false, false, false, 7⟩ (fun _ => ⟨none, none, none⟩)
            "mach" 5 [] initState).buffer =
          entry_line ⟨false, false, false, 7⟩ (fun _ => ⟨none, none, none⟩) "mach" 5 [] ∧
        (handle_generic_exit ⟨false, false, false, 7⟩ (fun _ => ⟨none, none, none⟩)
            "mach" 0 false (handle_generic_entry ⟨false, false, false, 7⟩
              (fun _ => ⟨none, none, none⟩) "mach" 5 [] initState)).lines =
          [entry_line ⟨false, false, false, 7⟩ (fun _ => ⟨none, none, none⟩) "mach" 5 []
            ++ exit_suffix ⟨false, false, false, 7⟩ (fun _ => ⟨none, none, none⟩) 5 0] ∧
        (handle_generic_exit ⟨false, false, false, 7⟩ (fun _ => ⟨none, none, none⟩)
            "mach" 0 false (handle_generic_entry ⟨false, false, false, 7⟩
              (fun _ => ⟨none, none, none⟩) "mach" 5 [] initState)).buffer = "") :=
  ⟨rfl, rfl, single_call_single_line ⟨false, false, false, 7⟩
    (fun _ => ⟨none, none, none⟩) "mach" 5 [] 0 rfl rfl⟩

end Xtrace

namespace Envp

/-! ## Environment-block rewriting (envp_find / envp_make_entry / envp_set /
envp_get / xtrace_execve_inject_hook)

C strings are modelled as `List Char` and a NULL-terminated `char**`
environment block as a `List` of such strings (the terminating NULL pointer is
the end of the list).  The possibly-NULL `char**` handed to `envp_set` is an
`Option`. -/

/-- A NUL-terminated C string, as its list of characters. -/
abbrev CStr := List Char

/-- The characters of an entry before its first `'='` — what `envp_find`
compares against the key (it computes the length `strchr(entry,'=') - entry`
and `strncmp`s that many characters).  For an entry with no `'='` the C
computation is undefined (NULL pointer arithmetic); the model yields the whole
entry. -/
def entryKey : CStr → CStr
  | [] => []
  | c :: cs => if c = '=' then [] else c :: entryKey cs

/-- The characters of an entry after its first `'='` — `strchr(*entry,'=') + 1`
as used by `envp_get`. -/
def entryValue : CStr → CStr
  | [] => []
  | c :: cs => if c = '=' then cs else entryValue cs

/-- Embedding of `envp_find`: the index (slot) of the first entry whose key
part equals `key`, if any; the source returns a pointer to that slot. -/
def envp_find : List CStr → CStr → Option Nat
  | [], _ => none
  | e :: rest, key =>
    if entryKey e = key then some 0 else (envp_find rest key).map (· + 1)

/-- The string `"KEY=VALUE"` built by `envp_make_entry` (string content; the
byte-level allocation behaviour is modelled separately by
`envp_make_entry_mem`). -/
def envp_make_entry (key value : CStr) : CStr := key ++ '=' :: value

/-- Embedding of `envp_set`: a NULL block becomes a fresh one-entry block;
otherwise, if the key is present its slot is overwritten in place, and if it
is absent a grown copy of the array with the new entry (and a new NULL
terminator) replaces it.  The `allocated` bookkeeping only controls freeing
and is not part of the abstract result. -/
def envp_set (envp : Option (List CStr)) (key value : CStr) : List CStr :=
  match envp with
  | none => [envp_make_entry key value]
  | some l =>
    match envp_find l key with
    | some i => l.set i (envp_make_entry key value)
    | none => l ++ [envp_make_entry key value]

/-- Embedding of `envp_get`: find the entry, return the text after its first
`'='`. -/
def envp_get (envp : List CStr) (key : CStr) : Option CStr :=
  match envp_find envp key with
  | none => none
  | some i => some (entryValue (envp.getD i []))

lemma envp_get_cons (e : CStr) (rest : List CStr) (key : CStr) :
    envp_get (e :: rest) key =
      if entryKey e = key then some (entryValue e) else envp_get rest key := by
  by_cases h : entryKey e = key
  · simp [envp_get, envp_find, h]
  · simp only [envp_get, envp_find, h, if_false]
    cases hf : envp_find rest key with
    | none => simp
    | some i => simp [List.getD_cons_succ]

lemma envp_set_cons (e : CStr) (rest : List CStr) (key value : CStr) :
    envp_set (some (e :: rest)) key value =
      if entryKey e = key then envp_make_entry key value :: rest
      else e :: envp_set (some rest) key value := by
  by_cases h : entryKey e = key
  · simp [envp_set, envp_find, h]
  · simp only [envp_set, envp_find, h, if_false]
    cases hf : envp_find rest key with
    | none => simp
    | some i => simp [List.set]

lemma entryKey_make_entry (key value : CStr) (h : ('=' : Char) ∉ key) :
    entryKey (envp_make_entry key value) = key := by
  induction key with
  | nil => simp [envp_make_entry, entryKey]
  | cons c cs ih =>
    simp only [List.mem_cons, not_or] at h
    simp only [envp_make_entry, List.cons_append, entryKey] at *
    rw [if_neg (by exact fun hc => h.1 hc.symm)]
    exact congrArg (c :: ·) (ih h.2)

lemma entryValue_make_entry (key value : CStr) (h : ('=' : Char) ∉ key) :
    entryValue (envp_make_entry key value) = value := by
  induction key with
  | nil => simp [envp_make_entry, entryValue]
  | cons c cs ih =>
    simp only [List.mem_cons, not_or] at h
    simp only [envp_make_entry, List.cons_append, entryValue] at *
    rw [if_neg (by exact fun hc => h.1 hc.symm)]
    exact ih h.2

lemma envp_get_set_self (envp : Option (List CStr)) (key value : CStr)
    (h : ('=' : Char) ∉ key) :
    envp_get (envp_set envp key value) key = some value := by
  have hk := entryKey_make_entry key value h
  have hv := entryValue_make_entry key value h
  cases envp with
  | none => simp [envp_set, envp_get_cons, hk, hv]
  | some l =>
    induction l with
    | nil => simp [envp_set, envp_find, envp_get_cons, hk, hv]
    | cons e rest ih =>
      rw [envp_set_cons]
      by_cases he : entryKey e = key
      · simp [he, envp_get_cons, hk, hv]
      · rw [if_neg he, envp_get_cons, if_neg he]
        exact ih

lemma envp_get_set_other (l : List CStr) (key value key2 : CStr)
    (hk : ('=' : Char) ∉ key) (hne : key ≠ key2) :
    envp_get (envp_set (some l) key value) key2 = envp_get l key2 := by
  have hmk : entryKey (envp_make_entry key value) ≠ key2 := by
    rw [entryKey_make_entry key value hk]; exact hne
  induction l with
  | nil => simp [envp_set, envp_find, envp_get_cons, hmk, envp_get]
  | cons e rest ih =>
    rw [envp_set_cons]
    by_cases he : entryKey e = key
    · rw [if_pos he, envp_get_cons, if_neg hmk, envp_get_cons,
        if_neg (he ▸ hne)]
    · rw [if_neg he, envp_get_cons, envp_get_cons]
      by_cases he2 : entryKey e = key2
      · rw [if_pos he2, if_pos he2]
      · rw [if_neg he2, if_neg he2]
        exact ih

lemma envp_get_set_none (key value key2 : CStr)
    (hk : ('=' : Char) ∉ key) (hne : key ≠ key2) :
    envp_get (envp_set none key value) key2 = none := by
  have hmk : entryKey (envp_make_entry key value) ≠ key2 := by
    rw [entryKey_make_entry key value hk]; exact hne
  simp only [envp_set]
  rw [envp_get_cons, if_neg hmk]
  rfl

lemma envp_find_spec :
    ∀ (l : List CStr) (key : CStr) (i : Nat), envp_find l key = some i →
      ∃ h : i < l.length, entryKey l[i] = key := by
  intro l
  induction l with
  | nil => intro key i h; exact Option.noConfusion h
  | cons e rest ih =>
    intro key i h
    by_cases he : entryKey e = key
    · simp only [envp_find, he, if_pos, if_true] at h
      obtain rfl : (0 : Nat) = i := Option.some.inj h
      exact ⟨Nat.succ_pos _, he⟩
    · simp only [envp_find, he, if_false] at h
      cases hf : envp_find rest key with
      | none => rw [hf] at h; simp at h
      | some j =>
        rw [hf] at h
        obtain rfl : j + 1 = i := Option.some.inj h
        obtain ⟨hj, hkey⟩ := ih key j hf
        exact ⟨Nat.succ_lt_succ hj, hkey⟩

/-- C6, confirmed: for every (non-NULL) environment block and every key (a key
contains no `'='`), `envp_set` overwrites the existing slot in place when the
key is present — same array, same slot `i`, array length unchanged — and when
the key is absent it appends exactly one new entry at the end (the C array
grows from `count + 1` to `count + 2` pointers: one entry plus the NULL
terminator); in both cases every entry whose key differs from the one being
set is left exactly where it was, and the written entry carries the key being
set (so no duplicate key is introduced). -/
theorem envp_set_overwrite_or_append (l : List CStr) (key value : CStr)
    (hk : ('=' : Char) ∉ key) :
    (∀ i, envp_find l key = some i →
        envp_set (some l) key value = l.set i (envp_make_entry key value) ∧
        (envp_set (some l) key value).length = l.length) ∧
      (envp_find l key = none →
        envp_set (some l) key value = l ++ [envp_make_entry key value] ∧
        (envp_set (some l) key value).length = l.length + 1) ∧
      (∀ j (hj : j < l.length), entryKey l[j] ≠ key →
        (envp_set (some l) key value)[j]? = some l[j]) ∧
      entryKey (envp_make_entry key value) = key := by
  refine ⟨?_, ?_, ?_, entryKey_make_entry key value hk⟩
  · intro i hi
    constructor
    · simp only [envp_set, hi]
    · simp only [envp_set, hi, List.length_set]
  · intro hnone
    constructor
    · simp only [envp_set, hnone]
    · simp [envp_set, hnone]
  · intro j hj hne
    cases hf : envp_find l key with
    | none =>
      simp only [envp_set, hf]
      rw [List.getElem?_append_left hj, List.getElem?_eq_getElem hj]
    | some i =>
      obtain ⟨hi, hikey⟩ := envp_find_spec l key i hf
      have hij : i ≠ j := fun h => hne (h ▸ hikey)
      simp only [envp_set, hf]
      rw [List.getElem?_set_ne hij, List.getElem?_eq_getElem hj]

/-- C6, witness for `envp_set_overwrite_or_append` on the block
`["A=1", "B=2"]` with key `"B"`. -/
theorem envp_set_overwrite_or_append_witness :
    (('=' : Char) ∉ "B".toList) ∧
      ((∀ i, envp_find ["A=1".toList, "B=2".toList] "B".toList = some i →
          envp_set (some ["A=1".toList, "B=2".toList]) "B".toList "3".toList =
            ["A=1".toList, "B=2".toList].set i
              (envp_make_entry "B".toList "3".toList) ∧
          (envp_set (some ["A=1".toList, "B=2".toList]) "B".toList "3".toList).length =
            ["A=1".toList, "B=2".toList].length) ∧
        (envp_find ["A=1".toList, "B=2".toList] "B".toList = none →
          envp_set (some ["A=1".toList, "B=2".toList]) "B".toList "3".toList =
            ["A=1".toList, "B=2".toList] ++
              [envp_make_entry "B".toList "3".toList] ∧
          (envp_set (some ["A=1".toList, "B=2".toList]) "B".toList "3".toList).length =
            ["A=1".toList, "B=2".toList].length + 1) ∧
        (∀ j (hj : j < ["A=1".toList, "B=2".toList].length),
          entryKey ["A=1".toList, "B=2".toList][j] ≠ "B".toList →
          (envp_set (some ["A=1".toList, "B=2".toList]) "B".toList "3".toList)[j]? =
            some ["A=1".toList, "B=2".toList][j]) ∧
        entryKey (envp_make_entry "B".toList "3".toList) = "B".toList) :=
  ⟨by decide, envp_set_overwrite_or_append ["A=1".toList, "B=2".toList]
    "B".toList "3".toList (by decide)⟩

/-- Byte-level embedding of `envp_make_entry`: the allocation size handed to
`xtrace_malloc` and the list of `(offset, byte)` stores the function then
performs (`memcpy` of the key at offset 0, `'='` at offset `k`, `memcpy` of
the value at offset `k + 1`, and the terminating NUL — written by the source
at offset `k + v + 2`). -/
def envp_make_entry_mem (key value : CStr) : Nat × List (Nat × Char) :=
  let k := key.length
  let v := value.length
  (k + v + 2,
    key.enum ++ [(k, '=')] ++ (value.enum.map fun p => (k + 1 + p.1, p.2)) ++
      [(k + v + 2, '\x00')])

/-- C9: evaluated at key `"A"`, value `"B"` the allocation is 4 bytes (valid
offsets 0..3), yet `envp_make_entry` stores the terminating NUL at offset 4 —
one byte past the end of the buffer — and never writes offset 3, so the string
is not NUL-terminated inside its allocation.  The store
`entry[key_length + value_length + 2] = '\0'` is an off-by-one (the intended
last in-buffer offset is `k + v + 1`). -/
theorem envp_make_entry_oob_write :
    (envp_make_entry_mem "A".toList "B".toList).1 = 4 ∧
      ((4, '\x00') ∈ (envp_make_entry_mem "A".toList "B".toList).2) ∧
      ((envp_make_entry_mem "A".toList "B".toList).2.all fun p => p.1 ≠ 3) = true := by
  refine ⟨rfl, by decide, by decide⟩

/-- `LIBRARY_PATH` — the tracer's own shared library, appended to the
preload list at `execve` injection. -/
def LIBRARY_PATH : CStr := "/usr/lib/darling/libxtrace.dylib".toList

/-- `"DYLD_INSERT_LIBRARIES"`. -/
def DYLD_INSERT_LIBRARIES : CStr := "DYLD_INSERT_LIBRARIES".toList

/-- The tracer option globals the `execve`-injection hook re-exports
(`xtrace_split_entry_and_exit`, `xtrace_no_color`, `xtrace_kprintf`,
`xtrace_use_per_thread_logfile`, `xtrace_use_logfile`,
`xtrace_logfile_base`). -/
structure XtraceEnvOpts where
  split : Bool
  no_color : Bool
  kprintf : Bool
  per_thread : Bool
  use_logfile : Bool
  logfile_base : CStr

/-- Embedding of `xtrace_execve_inject_hook`: re-export the five
configuration variables with `envp_set`, then read the current
`DYLD_INSERT_LIBRARIES` value with `envp_get` and set it to the tracer's
library path, prefixed by the existing value and a `':'` when that value is
non-empty. -/
def xtrace_execve_inject_hook (cfg : XtraceEnvOpts)
    (envp : Option (List CStr)) : List CStr :=
  let e1 := envp_set envp "XTRACE_SPLIT_ENTRY_AND_EXIT".toList
    (if cfg.split then "1".toList else "0".toList)
  let e2 := envp_set (some e1) "XTRACE_NO_COLOR".toList
    (if cfg.no_color then "1".toList else "0".toList)
  let e3 := envp_set (some e2) "XTRACE_KPRINTF".toList
    (if cfg.kprintf then "1".toList else "0".toList)
  let e4 := envp_set (some e3) "XTRACE_LOG_FILE_PER_THREAD".toList
    (if cfg.per_thread then "1".toList else "0".toList)
  let e5 := envp_set (some e4) "XTRACE_LOG_FILE".toList
    (if cfg.use_logfile then cfg.logfile_base else [])
  let insert_libraries := envp_get e5 DYLD_INSERT_LIBRARIES
  let new_value := match insert_libraries with
    | none => LIBRARY_PATH
    | some x => if x = [] then LIBRARY_PATH else x ++ ':' :: LIBRARY_PATH
  envp_set (some e5) DYLD_INSERT_LIBRARIES new_value

lemma inject_preserves_dyld_get (cfg : XtraceEnvOpts) (l : List CStr) :
    envp_get (envp_set (some (envp_set (some (envp_set (some (envp_set (some
        (envp_set (some l) "XTRACE_SPLIT_ENTRY_AND_EXIT".toList
          (if cfg.split then "1".toList else "0".toList)))
        "XTRACE_NO_COLOR".toList
        (if cfg.no_color then "1".toList else "0".toList)))
        "XTRACE_KPRINTF".toList
        (if cfg.kprintf then "1".toList else "0".toList)))
        "XTRACE_LOG_FILE_PER_THREAD".toList
        (if cfg.per_thread then "1".toList else "0".toList)))
        "XTRACE_LOG_FILE".toList
        (if cfg.use_logfile then cfg.logfile_base else []))
      DYLD_INSERT_LIBRARIES = envp_get l DYLD_INSERT_LIBRARIES := by
  rw [envp_get_set_other _ "XTRACE_LOG_FILE".toList _ DYLD_INSERT_LIBRARIES
      (by decide) (by decide),
    envp_get_set_other _ "XTRACE_LOG_FILE_PER_THREAD".toList _ DYLD_INSERT_LIBRARIES
      (by decide) (by decide),
    envp_get_set_other _ "XTRACE_KPRINTF".toList _ DYLD_INSERT_LIBRARIES
      (by decide) (by decide),
    envp_get_set_other _ "XTRACE_NO_COLOR".toList _ DYLD_INSERT_LIBRARIES
      (by decide) (by decide),
    envp_get_set_other _ "XTRACE_SPLIT_ENTRY_AND_EXIT".toList _ DYLD_INSERT_LIBRARIES
      (by decide) (by decide)]

/-- C5, confirmed: when the `execve`-injection hook runs on an environment
block with no `DYLD_INSERT_LIBRARIES` entry (including a NULL block), the
resulting block's `DYLD_INSERT_LIBRARIES` value is exactly the tracer's
library path; when the block already has `DYLD_INSERT_LIBRARIES` with a
non-empty value `x`, the resulting value is `x`, then a colon, then the
tracer's library path, with `x` itself unmodified as a prefix. -/
theorem execve_inject_dyld_value (cfg : XtraceEnvOpts) :
    (∀ l : List CStr, envp_get l DYLD_INSERT_LIBRARIES = none →
        envp_get (xtrace_execve_inject_hook cfg (some l)) DYLD_INSERT_LIBRARIES =
          some LIBRARY_PATH) ∧
      envp_get (xtrace_execve_inject_hook cfg none) DYLD_INSERT_LIBRARIES =
        some LIBRARY_PATH ∧
      (∀ (l : List CStr) (x : CStr), envp_get l DYLD_INSERT_LIBRARIES = some x →
        x ≠ [] →
        envp_get (xtrace_execve_inject_hook cfg (some l)) DYLD_INSERT_LIBRARIES =
          some (x ++ ':' :: LIBRARY_PATH)) := by
  refine ⟨?_, ?_, ?_⟩
  · intro l hnone
    simp only [xtrace_execve_inject_hook]
    rw [envp_get_set_self _ DYLD_INSERT_LIBRARIES _ (by decide),
      inject_preserves_dyld_get cfg l, hnone]
  · simp only [xtrace_execve_inject_hook]
    rw [envp_get_set_self _ DYLD_INSERT_LIBRARIES _ (by decide),
      envp_get_set_other _ "XTRACE_LOG_FILE".toList _ DYLD_INSERT_LIBRARIES
        (by decide) (by decide),
      envp_get_set_other _ "XTRACE_LOG_FILE_PER_THREAD".toList _ DYLD_INSERT_LIBRARIES
        (by decide) (by decide),
      envp_get_set_other _ "XTRACE_KPRINTF".toList _ DYLD_INSERT_LIBRARIES
        (by decide) (by decide),
      envp_get_set_other _ "XTRACE_NO_COLOR".toList _ DYLD_INSERT_LIBRARIES
        (by decide) (by decide),
      envp_get_set_none "XTRACE_SPLIT_ENTRY_AND_EXIT".toList _ DYLD_INSERT_LIBRARIES
        (by decide) (by decide)]
  · intro l x hx hne
    simp only [xtrace_execve_inject_hook]
    rw [envp_get_set_self _ DYLD_INSERT_LIBRARIES _ (by decide),
      inject_preserves_dyld_get cfg l, hx]
    simp [hne]

/-- C5, witness for `execve_inject_dyld_value`: applies the theorem with a
default configuration, discharging the first conjunct's hypothesis on a block
without `DYLD_INSERT_LIBRARIES` and the third conjunct's hypotheses on a block
carrying `DYLD_INSERT_LIBRARIES=/foo`. -/
theorem execve_inject_dyld_value_witness :
    (envp_get ["PATH=/bin".toList] DYLD_INSERT_LIBRARIES = none ∧
      envp_get (xtrace_execve_inject_hook ⟨false, false, false, false, false, []⟩
          (some ["PATH=/bin".toList])) DYLD_INSERT_LIBRARIES = some LIBRARY_PATH) ∧
      (envp_get ["DYLD_INSERT_LIBRARIES=/foo".toList] DYLD_INSERT_LIBRARIES =
          some "/foo".toList ∧
        "/foo".toList ≠ ([] : CStr) ∧
        envp_get (xtrace_execve_inject_hook ⟨false, false, false, false, false, []⟩
            (some ["DYLD_INSERT_LIBRARIES=/foo".toList])) DYLD_INSERT_LIBRARIES =
          some ("/foo".toList ++ ':' :: LIBRARY_PATH)) :=
  ⟨⟨by decide,
      (execve_inject_dyld_value ⟨false, false, false, false, false, []⟩).1
        ["PATH=/bin".toList] (by decide)⟩,
    ⟨by decide, by decide,
      (execve_inject_dyld_value ⟨false, false, false, false, false, []⟩).2.2
        ["DYLD_INSERT_LIBRARIES=/foo".toList] "/foo".toList (by decide) (by decide)⟩⟩

end Envp
